import Mathlib

/-
Verification of the gap-scanner core of this repository
(gap_scanner.py: GapScanner.identify_gaps / scan_market_with_log;
api.py: scan_market and its cache) against its specification.

Embedding conventions.
* Prices, percentages and volumes are embedded as exact rationals; the
  arithmetic of the source is mirrored operation by operation.
* Python round(x, 2) rounds half to even; it is embedded as rnd2 below.
* Bar timestamps are minutes since an epoch falling at midnight, so the
  pandas bin of width 12min containing t is t / 12 (the default origin,
  the midnight starting the first day, is a multiple of 12 minutes) and
  the calendar day of t is t / 1440.
* pandas resample(...).agg(first/max/min/last/sum).dropna() keeps exactly
  the bins that contain at least one bar, in chronological order, and
  aggregates the bars of each bin.
* Python dicts keyed by symbol are association lists; dict[key] raising
  KeyError is an Except.error; a caught exception is the error branch of
  a match.
* sorted(set(dates)) is the ascending duplicate-free enumeration of the
  dates, embedded with an insertion sort after List.dedup.
* At the cache layer (api.py) a ledger entry is represented by its date
  key plus an opaque payload; ISO date strings compare lexicographically
  in the same order as the days they denote, so dates are naturals there.
* datetime.now values are passed in as parameters (hour and minute for
  the market-window test, a preformatted date string for record stamps);
  now.replace(hour, minute) keeps seconds, so the window comparison
  market_open <= now <= market_cutoff is exactly a comparison of the
  (hour, minute) pairs, embedded in minutes since midnight.
-/

/-- Round half to even of a rational to an integer, the rounding used by
Python's builtin round. -/
def rhe (q : ℚ) : ℤ :=
  if q - (⌊q⌋ : ℚ) < 1/2 then ⌊q⌋
  else if 1/2 < q - (⌊q⌋ : ℚ) then ⌊q⌋ + 1
  else if ⌊q⌋ % 2 = 0 then ⌊q⌋ else ⌊q⌋ + 1

/-- Python round(x, 2): round half to even at two decimal places. -/
def rnd2 (x : ℚ) : ℚ := ((rhe (x * 100) : ℤ) : ℚ) / 100

/-- Python int(x) truncates toward zero. -/
def truncQ (q : ℚ) : ℤ := if 0 ≤ q then ⌊q⌋ else -⌊-q⌋

/-- One row of the per-minute OHLCV frame downloaded for a symbol
(columns Open, High, Low, Close, Volume), with its timestamp in minutes. -/
structure Bar where
  t : ℕ
  op : ℚ
  hi : ℚ
  lo : ℚ
  cl : ℚ
  vol : ℚ
deriving DecidableEq

/-- An aggregated candle produced by resample('12min').agg(Open first,
High max, Low min, Close last, Volume sum).dropna(). -/
structure Candle where
  tstart : ℕ
  op : ℚ
  hi : ℚ
  lo : ℚ
  cl : ℚ
  vol : ℚ
deriving DecidableEq

/-- A daily aggregate produced by resample('D').agg(High max, Low min,
Volume sum).dropna(). -/
structure Daily where
  hi : ℚ
  lo : ℚ
  vol : ℚ
deriving DecidableEq

/-- The 12-minute candle of a given bin, when the bin holds any bars:
Open first, High max, Low min, Close last, Volume sum. -/
def candleOf (w bin : ℕ) (bars : List Bar) : Option Candle :=
  match bars.filter (fun b => b.t / w == bin) with
  | [] => none
  | b :: bs => some
      { tstart := bin * w
        op := b.op
        hi := (bs.map Bar.hi).foldl max b.hi
        lo := (bs.map Bar.lo).foldl min b.lo
        cl := (bs.getLast?.getD b).cl
        vol := b.vol + (bs.map Bar.vol).sum }

/-- symbol_data.resample('12min').agg({Open first, High max, Low min,
Close last, Volume sum}).dropna(): one candle per occupied 12-minute bin,
in the order the bins appear. -/
def resample12 (bars : List Bar) : List Candle :=
  ((bars.map (fun b => b.t / 12)).dedup).filterMap (fun bin => candleOf 12 bin bars)

/-- The daily aggregate of a given calendar day, when the day holds bars. -/
def dailyOf (day : ℕ) (bars : List Bar) : Option Daily :=
  match bars.filter (fun b => b.t / 1440 == day) with
  | [] => none
  | b :: bs => some
      { hi := (bs.map Bar.hi).foldl max b.hi
        lo := (bs.map Bar.lo).foldl min b.lo
        vol := b.vol + (bs.map Bar.vol).sum }

/-- symbol_data.resample('D').agg({High max, Low min, Volume sum}).dropna(). -/
def resampleD (bars : List Bar) : List Daily :=
  ((bars.map (fun b => b.t / 1440)).dedup).filterMap (fun day => dailyOf day bars)

/-- today_candle = df_12min[-1:]: the last 12-minute candle of the whole
downloaded window (the source applies no date filter here). -/
def openingCandle? (bars : List Bar) : Option Candle :=
  (resample12 bars).getLast?

/-- prev_day.iloc[-2] guarded by len(prev_day) < 2: the second-to-last
daily aggregate, None when fewer than two daily rows exist. -/
def prevDaily? (bars : List Bar) : Option Daily :=
  let prevDays := resampleD bars
  if 2 ≤ prevDays.length then some (prevDays.getD (prevDays.length - 2) ⟨0, 0, 0⟩)
  else none

/-- symbol_data['Volume'].mean(). -/
def meanVol (bars : List Bar) : ℚ := (bars.map Bar.vol).sum / (bars.length : ℚ)

/-- The {name, sector} metadata of one company. -/
structure CompanyInfo where
  name : String
  sector : String
deriving DecidableEq

/-- self.company_info.get(symbol, {'name': symbol, 'sector': 'Unknown'}). -/
def lookupInfo (cinfo : List (String × CompanyInfo)) (sym : String) : CompanyInfo :=
  match cinfo.find? (fun p => p.1 == sym) with
  | some p => p.2
  | none => { name := sym, sector := "Unknown" }

/-- self.company_info.get(symbol, {}).get('name', 'Unknown'). -/
def lookupName (cinfo : List (String × CompanyInfo)) (sym : String) : String :=
  match cinfo.find? (fun p => p.1 == sym) with
  | some p => p.2.name
  | none => "Unknown"

/-- self.company_info.get(symbol, {}).get('sector', 'Unknown'). -/
def lookupSector (cinfo : List (String × CompanyInfo)) (sym : String) : String :=
  match cinfo.find? (fun p => p.1 == sym) with
  | some p => p.2.sector
  | none => "Unknown"

/-- data[symbol] on the multi-symbol frame: the bars of one symbol, or a
KeyError when the symbol is absent. -/
def lookupBars (data : List (String × List Bar)) (sym : String) : Option (List Bar) :=
  (data.find? (fun p => p.1 == sym)).map Prod.snd

/-- The dictionary identify_gaps returns for a qualifying gap, field for
field as built at gap_scanner.py lines 157-178 (price fields rounded to
two decimals, volumes truncated to int, relative volume guarded against a
zero mean). -/
structure GapRecord where
  symbol : String
  companyName : String
  sector : String
  date : String
  gap_type : String
  gap_size : ℚ
  prev_high : ℚ
  prev_low : ℚ
  current_open : ℚ
  price : ℚ
  first_candle_high : ℚ
  first_candle_low : ℚ
  entry_price : ℚ
  stop_loss : ℚ
  target : ℚ
  risk_amount : ℚ
  reward_amount : ℚ
  volume : ℤ
  avg_volume : ℤ
  relative_volume : ℚ
deriving DecidableEq

/-- Builds the returned dictionary from the unrounded branch variables. -/
def mkGapRecord (sym : String) (ci : CompanyInfo) (dateStr gapType : String)
    (gapSize prevHigh prevLow curOpen fcClose fcHigh fcLow entry stop tgt risk vol avgVol : ℚ) :
    GapRecord :=
  { symbol := sym
    companyName := ci.name
    sector := ci.sector
    date := dateStr
    gap_type := gapType
    gap_size := rnd2 gapSize
    prev_high := rnd2 prevHigh
    prev_low := rnd2 prevLow
    current_open := rnd2 curOpen
    price := rnd2 fcClose
    first_candle_high := rnd2 fcHigh
    first_candle_low := rnd2 fcLow
    entry_price := rnd2 entry
    stop_loss := rnd2 stop
    target := rnd2 tgt
    risk_amount := rnd2 risk
    reward_amount := rnd2 (risk * 2)
    volume := truncQ vol
    avg_volume := truncQ avgVol
    relative_volume := if 0 < avgVol then rnd2 (vol / avgVol) else 0 }

/-- The branch selection of identify_gaps (gap_scanner.py lines 124-146):
gap-up when current_open < prev_day_low and first_candle_close >
first_candle_open, gap-down when current_open > prev_day_high and
first_candle_close < first_candle_open; each branch yields
(gap_size, gap_type, entry_price, stop_loss, risk, target). -/
def gapPlan (prev : Daily) (today : Candle) : Option (ℚ × String × ℚ × ℚ × ℚ × ℚ) :=
  if today.op < prev.lo ∧ today.op < today.cl then
    some (((prev.lo - today.op) / prev.lo) * 100, "up",
      today.hi + 1/100, today.lo - 1/100,
      (today.hi + 1/100) - (today.lo - 1/100),
      (today.hi + 1/100) + ((today.hi + 1/100) - (today.lo - 1/100)) * 2)
  else if prev.hi < today.op ∧ today.cl < today.op then
    some (((today.op - prev.hi) / prev.hi) * 100, "down",
      today.lo - 1/100, today.hi + 1/100,
      (today.hi + 1/100) - (today.lo - 1/100),
      (today.lo - 1/100) - ((today.hi + 1/100) - (today.lo - 1/100)) * 2)
  else none

/-- The body of identify_gaps after data[symbol] succeeded: the length
guard, candle selection, branch selection, threshold test and record
construction of gap_scanner.py lines 88-179. -/
def detectGap (minGap : ℚ) (cinfo : List (String × CompanyInfo)) (dateStr sym : String)
    (bars : List Bar) : Option GapRecord :=
  if bars.length < 2 then none
  else
    match openingCandle? bars with
    | none => none
    | some today =>
      match prevDaily? bars with
      | none => none
      | some prev =>
        match gapPlan prev today with
        | none => none
        | some (gapSize, gapType, entry, stop, risk, tgt) =>
          if minGap ≤ |gapSize| then
            some (mkGapRecord sym (lookupInfo cinfo sym) dateStr gapType gapSize
              prev.hi prev.lo today.op today.cl today.hi today.lo
              entry stop tgt risk today.vol (meanVol bars))
          else none

/-- identify_gaps before its catch-all handler: data[symbol] may raise
KeyError; everything after it is total in this model. -/
def identifyGapsE (minGap : ℚ) (cinfo : List (String × CompanyInfo)) (dateStr : String)
    (data : List (String × List Bar)) (sym : String) : Except String (Option GapRecord) :=
  match lookupBars data sym with
  | none => .error ("KeyError: " ++ sym)
  | some bars => .ok (detectGap minGap cinfo dateStr sym bars)

/-- identify_gaps: its try/except swallows every exception of the body
and returns None (gap_scanner.py lines 181-183). -/
def identifyGaps (minGap : ℚ) (cinfo : List (String × CompanyInfo)) (dateStr : String)
    (data : List (String × List Bar)) (sym : String) : Option GapRecord :=
  match identifyGapsE minGap cinfo dateStr data sym with
  | .ok g => g
  | .error _ => none

/-- One row of the scan log. -/
structure ScanLogEntry where
  symbol : String
  companyName : String
  sector : String
  status : String
  time : String
  has_gap : Bool
deriving DecidableEq

/-- The per-symbol step of scan_market_with_log on a successfully
downloaded batch (gap_scanner.py lines 215-235); its own except-branch
(lines 237-246) is unreachable here because identify_gaps never raises
and the metadata lookup is total. -/
def scanSymbol (minGap : ℚ) (cinfo : List (String × CompanyInfo)) (dateStr scanTime : String)
    (data : List (String × List Bar)) (sym : String) : Option GapRecord × ScanLogEntry :=
  match identifyGaps minGap cinfo dateStr data sym with
  | some g =>
      (some g, { symbol := sym, companyName := (lookupInfo cinfo sym).name,
                 sector := (lookupInfo cinfo sym).sector, status := "gap_found",
                 time := scanTime, has_gap := true })
  | none =>
      (none, { symbol := sym, companyName := (lookupInfo cinfo sym).name,
               sector := (lookupInfo cinfo sym).sector, status := "no_gap",
               time := scanTime, has_gap := false })

/-- The scan-log row appended for every symbol of a batch whose download
failed (gap_scanner.py lines 204-212). -/
def dlFailedEntry (cinfo : List (String × CompanyInfo)) (scanTime sym : String) : ScanLogEntry :=
  { symbol := sym, companyName := lookupName cinfo sym, sector := lookupSector cinfo sym,
    status := "download_failed", time := scanTime, has_gap := false }

/-- One batch of the scan: a failed download yields a download_failed row
per symbol and no gaps; a successful one evaluates every symbol. -/
def processBatch (fetch : List String → Option (List (String × List Bar)))
    (minGap : ℚ) (cinfo : List (String × CompanyInfo)) (dateStr scanTime : String)
    (batch : List String) : List GapRecord × List ScanLogEntry :=
  match fetch batch with
  | none => ([], batch.map (dlFailedEntry cinfo scanTime))
  | some data =>
      let results := batch.map (scanSymbol minGap cinfo dateStr scanTime data)
      (results.filterMap Prod.fst, results.map Prod.snd)

/-- Python's [symbols[i:i+bs] for i in range(0, len(symbols), bs)],
written with fuel so that it is structurally recursive; the fuel
symbols.length suffices for every positive batch size. -/
def chunkAux : ℕ → ℕ → List String → List (List String)
  | 0, _, _ => []
  | _ + 1, _, [] => []
  | fuel + 1, bs, x :: xs => ((x :: xs).take bs) :: chunkAux fuel bs ((x :: xs).drop bs)

/-- The batch partition of the symbol universe. -/
def chunk (bs : ℕ) (symbols : List String) : List (List String) :=
  chunkAux symbols.length bs symbols

/-- scan_market_with_log: partitions the universe into batches, processes
each, and returns the concatenated gaps and the concatenated scan log
(gap_scanner.py lines 185-255). -/
def scan_market_with_log (fetch : List String → Option (List (String × List Bar)))
    (minGap : ℚ) (cinfo : List (String × CompanyInfo)) (dateStr scanTime : String)
    (batchSize : ℕ) (symbols : List String) : List GapRecord × List ScanLogEntry :=
  let batches := chunk batchSize symbols
  ((batches.map (fun b => (processBatch fetch minGap cinfo dateStr scanTime b).1)).flatten,
   (batches.map (fun b => (processBatch fetch minGap cinfo dateStr scanTime b).2)).flatten)

/-- A ledger entry of api.py's cache['historical_data']: its date key
(ISO strings ordered as their days; here a natural) plus an opaque
payload standing for the remaining record fields. -/
structure HistEntry where
  date : ℕ
  payload : String
deriving DecidableEq

/-- Insert into an ascending list, keeping it ascending. -/
def insertSorted (x : ℕ) : List ℕ → List ℕ
  | [] => [x]
  | y :: ys => if x ≤ y then x :: y :: ys else y :: insertSorted x ys

/-- Ascending insertion sort. -/
def sortAsc (l : List ℕ) : List ℕ := l.foldr insertSorted []

/-- sorted(set(entry['date'] for entry in ledger)): the ascending
duplicate-free list of dates present in the ledger. -/
def sortedDates (L : List HistEntry) : List ℕ := sortAsc ((L.map HistEntry.date).dedup)

/-- dates[-3:]. -/
def keepDates (ds : List ℕ) : List ℕ := ds.drop (ds.length - 3)

/-- The retention step of api.py lines 106-112: when more than 3 distinct
dates are present, keep only the entries of the most recent 3. -/
def trim3 (L : List HistEntry) : List HistEntry :=
  if 3 < (sortedDates L).length then
    L.filter (fun e => decide (e.date ∈ keepDates (sortedDates L)))
  else L

/-- [entry for entry in ledger if entry['date'] != current_date]. -/
def filterNotDate (d : ℕ) (L : List HistEntry) : List HistEntry :=
  L.filter (fun e => !(e.date == d))

/-- The ledger mutation of a successful scan with results (api.py lines
96-112): drop the current date's old entries, append the new results,
then trim to the most recent 3 dates. -/
def updateLedger (L R : List HistEntry) (d : ℕ) : List HistEntry :=
  trim3 (filterNotDate d L ++ R)

/-- The number of ledger entries carrying a given date. -/
def countDate (d : ℕ) (L : List HistEntry) : ℕ :=
  (L.filter (fun e => e.date == d)).length

/-- The mutable state of api.py's cache. -/
structure ApiState where
  last_scan : Option (ℕ × ℕ)
  historical_data : List HistEntry
  scanning : Bool
deriving DecidableEq

/-- A call of scan_market: the state it leaves behind, how many times it
ran scanner.scan_market (each run issuing that scan's batch fetches), and
the ledgers it saved to the history file. -/
structure ScanOutcome where
  state : ApiState
  scanRuns : ℕ
  saves : List (List HistEntry)
deriving DecidableEq

/-- market_open <= now <= market_cutoff with the window 9:42-9:45; since
now.replace(hour, minute) keeps now's seconds, the test is exactly this
comparison of minutes since midnight. -/
def inScanWindow (hh mm : ℕ) : Bool :=
  (9 * 60 + 42 ≤ hh * 60 + mm) && (hh * 60 + mm ≤ 9 * 60 + 45)

/-- api.py scan_market: the in-flight guard, the market-hours gate, the
conditional ledger replacement/retention/save when the scan produced
results, and the last_scan stamp; the scanning flag is reset by the
finally block. The scan's results are the parameter, stamped with the
current date d. -/
def scan_market_api (st : ApiState) (hh mm : ℕ) (results : List HistEntry) (d : ℕ) :
    ScanOutcome :=
  if st.scanning then { state := st, scanRuns := 0, saves := [] }
  else if inScanWindow hh mm then
    if results.isEmpty then
      { state := { last_scan := some (hh, mm), historical_data := st.historical_data,
                   scanning := false },
        scanRuns := 1, saves := [] }
    else
      let newLedger := updateLedger st.historical_data results d
      { state := { last_scan := some (hh, mm), historical_data := newLedger,
                   scanning := false },
        scanRuns := 1, saves := [newLedger] }
  else
    { state := { last_scan := some (hh, mm), historical_data := st.historical_data,
                 scanning := false },
      scanRuns := 0, saves := [] }

/-- Bars refuting the strict inequality of C1 on the rounded fields: the
previous day's low 0.504 and the opening candle's open 0.501 both round
to 0.50 while the gap itself is far above the 0.5 percent threshold. -/
def barsC1 : List Bar :=
  [⟨600, 0.55, 0.6, 0.504, 0.58, 300⟩, ⟨2000, 0.501, 0.503, 0.5, 0.502, 100⟩]

def dataC1 : List (String × List Bar) := [(("AAA" : String), barsC1)]

/-- Bars refuting C2 at threshold 0.503: the unrounded gap is exactly
0.503 percent, which rounds to 0.50, below the threshold. -/
def barsC2 : List Bar :=
  [⟨600, 1050, 1100, 1000, 1080, 500⟩, ⟨2000, 994.97, 995.5, 994.5, 995, 800⟩]

def dataC2 : List (String × List Bar) := [(("BBB" : String), barsC2)]

/-- Bars refuting the exact 2:1 identity of C3 on the rounded fields:
the opening candle's high 100.004 and low 99.996 are not whole cents, so
rounding entry, stop and target independently breaks the identity. -/
def barsC3 : List Bar :=
  [⟨600, 105, 110, 101, 107, 500⟩, ⟨2000, 99.998, 100.004, 99.996, 100, 1000⟩]

def dataC3 : List (String × List Bar) := [(("CCC" : String), barsC3)]

/-- Bars for C4: all data lies on days 0 and 1 (minutes 600 and 2000),
none on the scan day 2, yet identify_gaps evaluates the last 12-minute
candle of day 1 as the opening-range candle. -/
def barsC4 : List Bar :=
  [⟨600, 105, 110, 100, 107, 500⟩, ⟨2000, 95, 97, 94, 96, 1000⟩]

/-- Whole-cent bars used by the witnesses of the amended C1/C2/C3. -/
def barsW : List Bar :=
  [⟨600, 105, 110, 101, 107, 500⟩, ⟨2000, 99, 100.5, 98.5, 100, 1000⟩]

def dataW : List (String × List Bar) := [(("WWW" : String), barsW)]

/-- A series too short to evaluate (len < 2 exits identify_gaps early). -/
def barsShort : List Bar := [⟨0, 1, 1, 1, 1, 1⟩]

/-- Batch data for C5 holding only one of the two scanned symbols, so
that data[symbol] raises inside identify_gaps for the other. -/
def dataC5 : List (String × List Bar) := [(("AAPL" : String), barsShort)]

/-- The opening-range candle identify_gaps selects from barsW. -/
def candleW : Candle := ⟨1992, 99, 201/2, 197/2, 100, 1000⟩

/-- The second-to-last daily aggregate of barsW. -/
def prevW : Daily := ⟨110, 101, 500⟩

/-- The record identify_gaps returns on dataW at threshold 0.5. -/
def recW : GapRecord :=
  { symbol := "WWW", companyName := "WWW", sector := "Unknown", date := "d",
    gap_type := "up", gap_size := 99/50, prev_high := 110, prev_low := 101,
    current_open := 99, price := 100, first_candle_high := 201/2,
    first_candle_low := 197/2, entry_price := 10051/100, stop_loss := 9849/100,
    target := 2091/20, risk_amount := 101/50, reward_amount := 101/25,
    volume := 1000, avg_volume := 750, relative_volume := 133/100 }

/-- Discriminates the error branch of an identify_gaps body run. -/
def isErr (e : Except String (Option GapRecord)) : Bool :=
  match e with
  | .error _ => true
  | .ok _ => false

theorem rhe_abs_sub (q : ℚ) : |(rhe q : ℚ) - q| ≤ 1/2 := by
  have h0 : ((⌊q⌋ : ℤ) : ℚ) ≤ q := Int.floor_le q
  have h1 : q < ((⌊q⌋ : ℤ) : ℚ) + 1 := Int.lt_floor_add_one q
  unfold rhe
  split_ifs with hf1 hf2 hf3 <;> rw [abs_le] <;> push_cast <;> constructor <;> linarith

theorem rnd2_abs_sub (x : ℚ) : |rnd2 x - x| ≤ 1/200 := by
  have h := rhe_abs_sub (x * 100)
  rw [abs_le] at h ⊢
  unfold rnd2
  constructor <;> linarith [h.1, h.2]

theorem rnd2_centi (k : ℤ) : rnd2 ((k : ℚ)/100) = (k : ℚ)/100 := by
  unfold rnd2
  rw [div_mul_cancel₀ _ (by norm_num : (100:ℚ) ≠ 0)]
  unfold rhe
  norm_num

theorem centi_le {j k : ℤ} (h : (j : ℚ)/100 < (k : ℚ)/100 + 1/100) : (j : ℚ)/100 ≤ (k : ℚ)/100 := by
  have hj : (j : ℚ) < (k : ℚ) + 1 := by linarith
  have hj2 : j < k + 1 := by exact_mod_cast hj
  have hj3 : j ≤ k := by omega
  have hj4 : (j : ℚ) ≤ (k : ℚ) := by exact_mod_cast hj3
  linarith

theorem rnd2_le_of_lt {x y : ℚ} (h : x < y) : rnd2 x ≤ rnd2 y := by
  have hx := rnd2_abs_sub x
  have hy := rnd2_abs_sub y
  rw [abs_le] at hx hy
  have hlt : ((rhe (x * 100) : ℤ) : ℚ)/100 < ((rhe (y * 100) : ℤ) : ℚ)/100 + 1/100 := by
    unfold rnd2 at hx hy
    linarith [hx.2, hy.1]
  have := centi_le hlt
  unfold rnd2
  linarith

theorem abs_rnd2_ge {m x : ℚ} (h : m ≤ |x|) : m - 1/200 ≤ |rnd2 x| := by
  have h1 := rnd2_abs_sub x
  have h2 : |x| - |rnd2 x| ≤ |x - rnd2 x| := abs_sub_abs_le_abs_sub x (rnd2 x)
  rw [abs_sub_comm] at h2
  linarith

theorem abs_rnd2_ge_centi {k : ℤ} {x : ℚ} (h : (k : ℚ)/100 ≤ |x|) : (k : ℚ)/100 ≤ |rnd2 x| := by
  have h1 := abs_rnd2_ge h
  have h2 : |rnd2 x| = ((|rhe (x * 100)| : ℤ) : ℚ)/100 := by
    unfold rnd2
    rw [abs_div, Int.cast_abs]
    norm_num
  rw [h2] at h1 ⊢
  exact centi_le (by linarith)

theorem detectGap_eq_some {mg : ℚ} {ci : List (String × CompanyInfo)} {ds sym : String}
    {bars : List Bar} {r : GapRecord} (h : detectGap mg ci ds sym bars = some r) :
    ∃ today prev, openingCandle? bars = some today ∧ prevDaily? bars = some prev ∧
      ((today.op < prev.lo ∧ today.op < today.cl) ∧
        mg ≤ |((prev.lo - today.op) / prev.lo) * 100| ∧
        r = mkGapRecord sym (lookupInfo ci sym) ds ("up") (((prev.lo - today.op) / prev.lo) * 100)
          prev.hi prev.lo today.op today.cl today.hi today.lo
          (today.hi + 1/100) (today.lo - 1/100)
          ((today.hi + 1/100) + ((today.hi + 1/100) - (today.lo - 1/100)) * 2)
          ((today.hi + 1/100) - (today.lo - 1/100)) today.vol (meanVol bars)
      ∨ ¬(today.op < prev.lo ∧ today.op < today.cl) ∧
        (prev.hi < today.op ∧ today.cl < today.op) ∧
        mg ≤ |((today.op - prev.hi) / prev.hi) * 100| ∧
        r = mkGapRecord sym (lookupInfo ci sym) ds ("down") (((today.op - prev.hi) / prev.hi) * 100)
          prev.hi prev.lo today.op today.cl today.hi today.lo
          (today.lo - 1/100) (today.hi + 1/100)
          ((today.lo - 1/100) - ((today.hi + 1/100) - (today.lo - 1/100)) * 2)
          ((today.hi + 1/100) - (today.lo - 1/100)) today.vol (meanVol bars)) := by
  unfold detectGap at h
  split at h
  · exact absurd h (by simp)
  · split at h
    · exact absurd h (by simp)
    · rename_i today hoc
      split at h
      · exact absurd h (by simp)
      · rename_i prev hpd
        split at h
        · exact absurd h (by simp)
        · rename_i tup gapSize gapType entry stop risk tgt hplan
          split at h
          · rename_i hthr
            refine ⟨today, prev, hoc, hpd, ?_⟩
            unfold gapPlan at hplan
            split at hplan
            · rename_i hup
              simp only [Option.some.injEq, Prod.mk.injEq] at hplan h
              obtain ⟨hgs, hgt, hentry, hstop, hrisk, htgt⟩ := hplan
              left
              subst hgs hgt hentry hstop hrisk htgt
              exact ⟨hup, hthr, h.symm⟩
            · split at hplan
              · rename_i hnup hdown
                simp only [Option.some.injEq, Prod.mk.injEq] at hplan h
                obtain ⟨hgs, hgt, hentry, hstop, hrisk, htgt⟩ := hplan
                right
                subst hgs hgt hentry hstop hrisk htgt
                exact ⟨hnup, hdown, hthr, h.symm⟩
              · exact absurd hplan (by simp)
          · exact absurd h (by simp)

theorem identifyGaps_eq_detectGap {mg : ℚ} {ci : List (String × CompanyInfo)} {ds sym : String}
    {data : List (String × List Bar)} {bars : List Bar}
    (hb : lookupBars data sym = some bars) :
    identifyGaps mg ci ds data sym = detectGap mg ci ds sym bars := by
  unfold identifyGaps identifyGapsE
  rw [hb]

theorem resample12_barsC1 : resample12 barsC1 =
    [⟨600, 11/20, 3/5, 63/125, 29/50, 300⟩, ⟨1992, 501/1000, 503/1000, 1/2, 251/500, 100⟩] := by
  norm_num [resample12, candleOf, barsC1, List.dedup_cons_of_not_mem, List.filterMap_cons,
    max_def, min_def]

theorem resampleD_barsC1 : resampleD barsC1 = [⟨3/5, 63/125, 300⟩, ⟨503/1000, 1/2, 100⟩] := by
  norm_num [resampleD, dailyOf, barsC1, List.dedup_cons_of_not_mem, List.filterMap_cons,
    max_def, min_def]

theorem barsC1_length : barsC1.length = 2 := by norm_num [barsC1]

theorem resample12_barsC2 : resample12 barsC2 =
    [⟨600, 1050, 1100, 1000, 1080, 500⟩, ⟨1992, 99497/100, 1991/2, 1989/2, 995, 800⟩] := by
  norm_num [resample12, candleOf, barsC2, List.dedup_cons_of_not_mem, List.filterMap_cons,
    max_def, min_def]

theorem resampleD_barsC2 : resampleD barsC2 = [⟨1100, 1000, 500⟩, ⟨1991/2, 1989/2, 800⟩] := by
  norm_num [resampleD, dailyOf, barsC2, List.dedup_cons_of_not_mem, List.filterMap_cons,
    max_def, min_def]

theorem barsC2_length : barsC2.length = 2 := by norm_num [barsC2]

theorem resample12_barsC3 : resample12 barsC3 =
    [⟨600, 105, 110, 101, 107, 500⟩, ⟨1992, 49999/500, 25001/250, 24999/250, 100, 1000⟩] := by
  norm_num [resample12, candleOf, barsC3, List.dedup_cons_of_not_mem, List.filterMap_cons,
    max_def, min_def]

theorem resampleD_barsC3 : resampleD barsC3 = [⟨110, 101, 500⟩, ⟨25001/250, 24999/250, 1000⟩] := by
  norm_num [resampleD, dailyOf, barsC3, List.dedup_cons_of_not_mem, List.filterMap_cons,
    max_def, min_def]

theorem barsC3_length : barsC3.length = 2 := by norm_num [barsC3]

theorem resample12_barsC4 : resample12 barsC4 =
    [⟨600, 105, 110, 100, 107, 500⟩, ⟨1992, 95, 97, 94, 96, 1000⟩] := by
  norm_num [resample12, candleOf, barsC4, List.dedup_cons_of_not_mem, List.filterMap_cons,
    max_def, min_def]

theorem resampleD_barsC4 : resampleD barsC4 = [⟨110, 100, 500⟩, ⟨97, 94, 1000⟩] := by
  norm_num [resampleD, dailyOf, barsC4, List.dedup_cons_of_not_mem, List.filterMap_cons,
    max_def, min_def]

theorem barsC4_length : barsC4.length = 2 := by norm_num [barsC4]

theorem resample12_barsW : resample12 barsW =
    [⟨600, 105, 110, 101, 107, 500⟩, ⟨1992, 99, 201/2, 197/2, 100, 1000⟩] := by
  norm_num [resample12, candleOf, barsW, List.dedup_cons_of_not_mem, List.filterMap_cons,
    max_def, min_def]

theorem resampleD_barsW : resampleD barsW = [⟨110, 101, 500⟩, ⟨201/2, 197/2, 1000⟩] := by
  norm_num [resampleD, dailyOf, barsW, List.dedup_cons_of_not_mem, List.filterMap_cons,
    max_def, min_def]

theorem barsW_length : barsW.length = 2 := by norm_num [barsW]

theorem meanVol_barsW : meanVol barsW = 750 := by norm_num [meanVol, barsW]

theorem rnd2_v1 : rnd2 (501/1000) = 1/2 := by norm_num [rnd2, rhe]

theorem rnd2_v2 : rnd2 (63/125) = 1/2 := by norm_num [rnd2, rhe]

theorem rnd2_v3 : rnd2 (503/1000) = 1/2 := by norm_num [rnd2, rhe]

theorem rnd2_v4 : rnd2 (50007/500) = 10001/100 := by norm_num [rnd2, rhe]

theorem rnd2_v5 : rnd2 (49993/500) = 9999/100 := by norm_num [rnd2, rhe]

theorem rnd2_v6 : rnd2 (10007/100) = 10007/100 := by norm_num [rnd2, rhe]

theorem rnd2_v7 : rnd2 (95 : ℚ) = 95 := by norm_num [rnd2, rhe]

theorem rnd2_v8 : rnd2 (200/101) = 99/50 := by norm_num [rnd2, rhe]

theorem rnd2_v9 : rnd2 (110 : ℚ) = 110 := by norm_num [rnd2, rhe]

theorem rnd2_v10 : rnd2 (101 : ℚ) = 101 := by norm_num [rnd2, rhe]

theorem rnd2_v11 : rnd2 (99 : ℚ) = 99 := by norm_num [rnd2, rhe]

theorem rnd2_v12 : rnd2 (100 : ℚ) = 100 := by norm_num [rnd2, rhe]

theorem rnd2_v13 : rnd2 (201/2) = 201/2 := by norm_num [rnd2, rhe]

theorem rnd2_v14 : rnd2 (197/2) = 197/2 := by norm_num [rnd2, rhe]

theorem rnd2_v15 : rnd2 (10051/100) = 10051/100 := by norm_num [rnd2, rhe]

theorem rnd2_v16 : rnd2 (9849/100) = 9849/100 := by norm_num [rnd2, rhe]

theorem rnd2_v17 : rnd2 (101/50) = 101/50 := by norm_num [rnd2, rhe]

theorem rnd2_v18 : rnd2 (2091/20) = 2091/20 := by norm_num [rnd2, rhe]

theorem rnd2_v19 : rnd2 (101/25) = 101/25 := by norm_num [rnd2, rhe]

theorem rnd2_v20 : rnd2 (4/3) = 133/100 := by norm_num [rnd2, rhe]

theorem truncQ_1000 : truncQ 1000 = 1000 := by norm_num [truncQ]

theorem truncQ_750 : truncQ 750 = 750 := by norm_num [truncQ]

theorem identifyGaps_dataW : identifyGaps (1/2) [] "d" dataW ("WWW") = some recW := by
  rw [identifyGaps_eq_detectGap (show lookupBars dataW ("WWW") = some barsW from rfl)]
  norm_num [detectGap, openingCandle?, resample12_barsW, prevDaily?, resampleD_barsW,
    gapPlan, mkGapRecord, lookupInfo, barsW_length, meanVol_barsW, recW,
    rnd2_v8, rnd2_v9, rnd2_v10, rnd2_v11, rnd2_v12, rnd2_v13, rnd2_v14, rnd2_v15,
    rnd2_v16, rnd2_v17, rnd2_v18, rnd2_v19, rnd2_v20, truncQ_1000, truncQ_750,
    abs_eq_max_neg, max_def]

theorem openingCandle_barsW : openingCandle? barsW = some candleW := by
  unfold openingCandle?
  rw [resample12_barsW]
  rfl

theorem prevDaily_barsW : prevDaily? barsW = some prevW := by
  unfold prevDaily?
  rw [resampleD_barsW]
  rfl

/-- C1 (amended): among records returned by identify_gaps, gap-up reports
happen exactly on the unrounded conditions current_open < prev_day_low
and first_candle_close > first_candle_open, with the claimed gap-size
formula (stored rounded), and dually for gap-down; on the stored
2-decimal-rounded fields the consequence weakens from strict < to ≤,
since rounding can make current_open and prev_low coincide. -/
theorem gap_conditions_of_record (mg : ℚ) (ci : List (String × CompanyInfo)) (ds sym : String)
    (data : List (String × List Bar)) (bars : List Bar) (today : Candle) (prev : Daily)
    (r : GapRecord)
    (hb : lookupBars data sym = some bars)
    (hc : openingCandle? bars = some today)
    (hp : prevDaily? bars = some prev)
    (hr : identifyGaps mg ci ds data sym = some r) :
    (r.gap_type = "up" ↔ (today.op < prev.lo ∧ today.op < today.cl)) ∧
    (r.gap_type = "down" ↔ (prev.hi < today.op ∧ today.cl < today.op)) ∧
    (r.gap_type = "up" →
      r.gap_size = rnd2 (((prev.lo - today.op) / prev.lo) * 100) ∧ r.current_open ≤ r.prev_low) ∧
    (r.gap_type = "down" →
      r.gap_size = rnd2 (((today.op - prev.hi) / prev.hi) * 100) ∧ r.prev_high ≤ r.current_open) := by
  rw [identifyGaps_eq_detectGap hb] at hr
  obtain ⟨t2, p2, hc2, hp2, hcase⟩ := detectGap_eq_some hr
  rw [hc] at hc2
  rw [hp] at hp2
  obtain rfl : today = t2 := Option.some.inj hc2
  obtain rfl : prev = p2 := Option.some.inj hp2
  rcases hcase with ⟨hup, hthr, hrec⟩ | ⟨hnup, hdown, hthr, hrec⟩ <;> subst hrec
  · refine ⟨?_, ?_, ?_, ?_⟩
    · simp only [mkGapRecord]
      exact iff_of_true trivial hup
    · simp only [mkGapRecord]
      exact iff_of_false (by decide) (fun hdc => lt_asymm hup.2 hdc.2)
    · intro _
      refine ⟨by simp only [mkGapRecord], ?_⟩
      simp only [mkGapRecord]
      exact rnd2_le_of_lt hup.1
    · intro hx
      simp only [mkGapRecord] at hx
      exact absurd hx (by decide)
  · refine ⟨?_, ?_, ?_, ?_⟩
    · simp only [mkGapRecord]
      exact iff_of_false (by decide) (fun huc => lt_asymm hdown.2 huc.2)
    · simp only [mkGapRecord]
      exact iff_of_true trivial hdown
    · intro hx
      simp only [mkGapRecord] at hx
      exact absurd hx (by decide)
    · intro _
      refine ⟨by simp only [mkGapRecord], ?_⟩
      simp only [mkGapRecord]
      exact rnd2_le_of_lt hdown.1

/-- C1 witness: the amended statement evaluated on the concrete input
dataW, whose record recW is a 1.98 percent gap-up. -/
theorem gap_conditions_of_record_witness :
    (recW.gap_type = "up" ↔ (candleW.op < prevW.lo ∧ candleW.op < candleW.cl)) ∧
    (recW.gap_type = "down" ↔ (prevW.hi < candleW.op ∧ candleW.cl < candleW.op)) ∧
    (recW.gap_type = "up" →
      recW.gap_size = rnd2 (((prevW.lo - candleW.op) / prevW.lo) * 100) ∧
        recW.current_open ≤ recW.prev_low) ∧
    (recW.gap_type = "down" →
      recW.gap_size = rnd2 (((candleW.op - prevW.hi) / prevW.hi) * 100) ∧
        recW.prev_high ≤ recW.current_open) :=
  gap_conditions_of_record (1/2) [] "d" "WWW" dataW barsW candleW prevW recW rfl
    openingCandle_barsW prevDaily_barsW identifyGaps_dataW

/-- C1 counterexample: with previous-day low 0.504 and opening candle
open 0.501 (a 0.595 percent gap-up), both stored fields round to 0.50,
so the claimed strict inequality current_open < prev_low fails on the
returned record. -/
theorem gap_conditions_rounding_cex :
    (identifyGaps (1/2) [] "d" dataC1 ("AAA")).map
      (fun r => (r.gap_type, r.current_open, r.prev_low,
        decide (r.current_open < r.prev_low)))
    = some (("up", 1/2, 1/2, false)) := by
  rw [identifyGaps_eq_detectGap (show lookupBars dataC1 ("AAA") = some barsC1 from rfl)]
  norm_num [detectGap, openingCandle?, resample12_barsC1, prevDaily?, resampleD_barsC1,
    gapPlan, mkGapRecord, lookupInfo, barsC1_length, rnd2_v1, rnd2_v2,
    abs_eq_max_neg, max_def]

/-- C2 (amended): for every record returned by identify_gaps the
unrounded gap size clears the threshold, so the stored rounded gap_size
field satisfies abs(gap_size) >= min_gap_percent - 0.005 always, and
abs(gap_size) >= min_gap_percent whenever min_gap_percent is a whole
number of cents (as the deployed 0.5 is); for other thresholds the
rounded field can fall below it. -/
theorem gap_size_threshold_of_record (mg : ℚ) (ci : List (String × CompanyInfo)) (ds sym : String)
    (data : List (String × List Bar)) (r : GapRecord)
    (hr : identifyGaps mg ci ds data sym = some r) :
    mg - 1/200 ≤ |r.gap_size| ∧ ∀ k : ℤ, mg = (k : ℚ)/100 → mg ≤ |r.gap_size| := by
  unfold identifyGaps identifyGapsE at hr
  cases hlb : lookupBars data sym with
  | none =>
      rw [hlb] at hr
      exact absurd hr (by simp)
  | some bars =>
      rw [hlb] at hr
      simp only at hr
      obtain ⟨t2, p2, hc2, hp2, hcase⟩ := detectGap_eq_some hr
      rcases hcase with ⟨hup, hthr, hrec⟩ | ⟨hnup, hdown, hthr, hrec⟩ <;> subst hrec <;>
        refine ⟨by simp only [mkGapRecord]; exact abs_rnd2_ge hthr, ?_⟩ <;>
        · intro k hk
          subst hk
          simp only [mkGapRecord]
          exact abs_rnd2_ge_centi hthr

/-- C2 witness: the amended statement evaluated on dataW at the deployed
threshold 0.5 = 50 cents. -/
theorem gap_size_threshold_of_record_witness :
    (1:ℚ)/2 - 1/200 ≤ |recW.gap_size| ∧
      ∀ k : ℤ, (1:ℚ)/2 = (k : ℚ)/100 → (1:ℚ)/2 ≤ |recW.gap_size| :=
  gap_size_threshold_of_record (1/2) [] "d" "WWW" dataW recW identifyGaps_dataW

/-- C2 counterexample: at the configured threshold 0.503 a gap of exactly
0.503 percent is accepted (the unrounded check passes) but its stored
gap_size field rounds to 0.50, strictly below the threshold. -/
theorem gap_size_threshold_cex :
    (identifyGaps (503/1000) [] "d" dataC2 ("BBB")).map
      (fun r => (r.gap_size, decide ((503:ℚ)/1000 ≤ |r.gap_size|)))
    = some ((1/2, false)) := by
  rw [identifyGaps_eq_detectGap (show lookupBars dataC2 ("BBB") = some barsC2 from rfl)]
  norm_num [detectGap, openingCandle?, resample12_barsC2, prevDaily?, resampleD_barsC2,
    gapPlan, mkGapRecord, lookupInfo, barsC2_length, rnd2_v3,
    abs_eq_max_neg, max_def]

/-- C3 (amended): the stored fields satisfy the exact 2:1 identity
whenever the opening candle's high and low are whole numbers of cents
(then every derived price is a whole number of cents and rounding is the
identity); for non-cent inputs the independently rounded fields can break
it. -/
theorem trade_plan_identity_on_cents (mg : ℚ) (ci : List (String × CompanyInfo)) (ds sym : String)
    (data : List (String × List Bar)) (bars : List Bar) (today : Candle) (prev : Daily)
    (r : GapRecord)
    (hb : lookupBars data sym = some bars)
    (hc : openingCandle? bars = some today)
    (hp : prevDaily? bars = some prev)
    (hr : identifyGaps mg ci ds data sym = some r)
    (ha : ∃ a : ℤ, today.hi = (a : ℚ)/100)
    (hl : ∃ b : ℤ, today.lo = (b : ℚ)/100) :
    (r.gap_type = "up" → r.target = r.entry_price + 2 * (r.entry_price - r.stop_loss)) ∧
    (r.gap_type = "down" → r.target = r.entry_price - 2 * (r.stop_loss - r.entry_price)) := by
  obtain ⟨a, ha⟩ := ha
  obtain ⟨b, hl⟩ := hl
  rw [identifyGaps_eq_detectGap hb] at hr
  obtain ⟨t2, p2, hc2, hp2, hcase⟩ := detectGap_eq_some hr
  rw [hc] at hc2
  rw [hp] at hp2
  obtain rfl : today = t2 := Option.some.inj hc2
  obtain rfl : prev = p2 := Option.some.inj hp2
  rcases hcase with ⟨hup, hthr, hrec⟩ | ⟨hnup, hdown, hthr, hrec⟩ <;> subst hrec
  · refine ⟨fun _ => ?_, fun hx => absurd (by simpa only [mkGapRecord] using hx) (by decide)⟩
    simp only [mkGapRecord]
    rw [ha, hl]
    have e3 : (a : ℚ)/100 + 1/100 + ((a : ℚ)/100 + 1/100 - ((b : ℚ)/100 - 1/100)) * 2
        = ((3*a - 2*b + 5 : ℤ) : ℚ)/100 := by push_cast; ring
    have e1 : (a : ℚ)/100 + 1/100 = ((a + 1 : ℤ) : ℚ)/100 := by push_cast; ring
    have e2 : (b : ℚ)/100 - 1/100 = ((b - 1 : ℤ) : ℚ)/100 := by push_cast; ring
    rw [e3, e1, e2]
    simp only [rnd2_centi]
    push_cast
    ring
  · refine ⟨fun hx => absurd (by simpa only [mkGapRecord] using hx) (by decide), fun _ => ?_⟩
    simp only [mkGapRecord]
    rw [ha, hl]
    have e3 : (b : ℚ)/100 - 1/100 - ((a : ℚ)/100 + 1/100 - ((b : ℚ)/100 - 1/100)) * 2
        = ((3*b - 2*a - 5 : ℤ) : ℚ)/100 := by push_cast; ring
    have e1 : (a : ℚ)/100 + 1/100 = ((a + 1 : ℤ) : ℚ)/100 := by push_cast; ring
    have e2 : (b : ℚ)/100 - 1/100 = ((b - 1 : ℤ) : ℚ)/100 := by push_cast; ring
    rw [e3, e1, e2]
    simp only [rnd2_centi]
    push_cast
    ring

/-- C3 witness: the amended statement evaluated on dataW, whose opening
candle has high 100.50 and low 98.50, both whole numbers of cents. -/
theorem trade_plan_identity_on_cents_witness :
    (recW.gap_type = "up" → recW.target = recW.entry_price + 2 * (recW.entry_price - recW.stop_loss)) ∧
    (recW.gap_type = "down" → recW.target = recW.entry_price - 2 * (recW.stop_loss - recW.entry_price)) :=
  trade_plan_identity_on_cents (1/2) [] "d" "WWW" dataW barsW candleW prevW recW rfl
    openingCandle_barsW prevDaily_barsW identifyGaps_dataW
    ⟨10050, by norm_num [candleW]⟩ ⟨9850, by norm_num [candleW]⟩

/-- C3 counterexample: with opening-candle high 100.004 and low 99.996
the stored fields are entry 100.01, stop 99.99, target 100.07, and
100.07 is not 100.01 + 2 * (100.01 - 99.99) = 100.05. -/
theorem trade_plan_identity_cex :
    (identifyGaps (1/2) [] "d" dataC3 ("CCC")).map
      (fun r => (r.gap_type, r.target, r.entry_price, r.stop_loss,
        decide (r.target = r.entry_price + 2 * (r.entry_price - r.stop_loss))))
    = some (("up", 10007/100, 10001/100, 9999/100, false)) := by
  rw [identifyGaps_eq_detectGap (show lookupBars dataC3 ("CCC") = some barsC3 from rfl)]
  norm_num [detectGap, openingCandle?, resample12_barsC3, prevDaily?, resampleD_barsC3,
    gapPlan, mkGapRecord, lookupInfo, barsC3_length, rnd2_v4, rnd2_v5, rnd2_v6,
    abs_eq_max_neg, max_def]

/-- C4: identify_gaps applies no date filter when selecting the
opening-range candle; on barsC4, whose data ends the day before the scan
date, the candle used starts on day 1 while the record is stamped with
the scan date, so a candle from an earlier date is used. -/
theorem opening_candle_stale_date :
    (openingCandle? barsC4).map (fun c => c.tstart / 1440) = some 1 ∧
    (detectGap (1/2) [] "2026-10-12" "SYM" barsC4).map
      (fun r => (r.gap_type, r.current_open, r.date))
    = some (("up", 95, "2026-10-12")) := by
  constructor
  · unfold openingCandle?
    rw [resample12_barsC4]
    rfl
  · norm_num [detectGap, openingCandle?, resample12_barsC4, prevDaily?, resampleD_barsC4,
      gapPlan, mkGapRecord, lookupInfo, barsC4_length, rnd2_v7,
      abs_eq_max_neg, max_def]

theorem chunkAux_flatten : ∀ (fuel bs : ℕ) (l : List String), l.length ≤ fuel → 0 < bs →
    (chunkAux fuel bs l).flatten = l := by
  intro fuel
  induction fuel with
  | zero =>
      intro bs l hl _
      rw [Nat.le_zero, List.length_eq_zero] at hl
      subst hl
      rfl
  | succ n ih =>
      intro bs l hl hbs
      cases l with
      | nil => rfl
      | cons x xs =>
          rw [chunkAux, List.flatten_cons]
          rw [ih bs ((x :: xs).drop bs) ?_ hbs]
          · exact List.take_append_drop bs (x :: xs)
          · rw [List.length_drop]
            simp only [List.length_cons] at hl ⊢
            omega

theorem chunk_flatten (bs : ℕ) (symbols : List String) (hbs : 0 < bs) :
    (chunk bs symbols).flatten = symbols := by
  unfold chunk
  exact chunkAux_flatten _ bs symbols le_rfl hbs

theorem processBatch_log_length (fetch : List String → Option (List (String × List Bar)))
    (mg : ℚ) (ci : List (String × CompanyInfo)) (ds st : String) (b : List String) :
    ((processBatch fetch mg ci ds st b).2).length = b.length := by
  unfold processBatch
  cases fetch b <;> simp

theorem scan_log_length (fetch : List String → Option (List (String × List Bar)))
    (mg : ℚ) (ci : List (String × CompanyInfo)) (ds st : String) (bs : ℕ)
    (symbols : List String) (hbs : 0 < bs) :
    (scan_market_with_log fetch mg ci ds st bs symbols).2.length = symbols.length := by
  unfold scan_market_with_log
  have hgen : ∀ L : List (List String),
      ((L.map (fun b => (processBatch fetch mg ci ds st b).2)).flatten).length
        = L.flatten.length := by
    intro L
    induction L with
    | nil => rfl
    | cons b bsL ih =>
        simp only [List.map_cons, List.flatten_cons, List.length_append, ih,
          processBatch_log_length]
  simp only [hgen]
  rw [chunk_flatten bs symbols hbs]

/-- C6: the scan log of scan_market_with_log has exactly one entry per
symbol of the universe, and a batch whose download failed contributes no
gaps and exactly one download_failed entry (has_gap false) per symbol of
the batch, while the remaining batches are still processed. -/
theorem scan_log_covers_universe (fetch : List String → Option (List (String × List Bar)))
    (mg : ℚ) (ci : List (String × CompanyInfo)) (ds st : String) (bs : ℕ)
    (symbols : List String) (hbs : 0 < bs) :
    (scan_market_with_log fetch mg ci ds st bs symbols).2.length = symbols.length ∧
    ∀ b ∈ chunk bs symbols, fetch b = none →
      processBatch fetch mg ci ds st b = ([], b.map (dlFailedEntry ci st)) := by
  refine ⟨scan_log_length fetch mg ci ds st bs symbols hbs, ?_⟩
  intro b _ hfb
  unfold processBatch
  rw [hfb]

/-- C6 witness: a universe of three symbols in batches of two with every
download failing still yields a three-entry log of download_failed rows. -/
theorem scan_log_covers_universe_witness :
    (scan_market_with_log (fun _ => none) (1/2) [] "d" "t" 2 ["A", "B", "C"]).2.length
      = (["A", "B", "C"] : List String).length ∧
    ∀ b ∈ chunk 2 ["A", "B", "C"],
      (fun _ : List String => (none : Option (List (String × List Bar)))) b = none →
      processBatch (fun _ => none) (1/2) [] "d" "t" b
        = ([], b.map (dlFailedEntry [] "t")) :=
  scan_log_covers_universe (fun _ => none) (1/2) [] "d" "t" 2 ["A", "B", "C"] (by norm_num)

/-- C5 counterexample: data[symbol] raises KeyError inside identify_gaps
for MSFT (its bars are missing from the batch frame), the exception is
caught inside identify_gaps, and the scan log records MSFT with status
no_gap, not error:KeyError. -/
theorem detection_error_status_cex :
    isErr (identifyGapsE (1/2) [] "d" dataC5 ("MSFT")) = true ∧
    ((scan_market_with_log (fun _ => some dataC5) (1/2) [] "d" "t" 25 ["AAPL", "MSFT"]).2.getD 1
      (dlFailedEntry [] "t" "Z")).symbol = "MSFT" ∧
    ((scan_market_with_log (fun _ => some dataC5) (1/2) [] "d" "t" 25 ["AAPL", "MSFT"]).2.getD 1
      (dlFailedEntry [] "t" "Z")).status = "no_gap" := by
  refine ⟨rfl, rfl, rfl⟩

/-- C5 (amended): an exception raised while computing one symbol's gap is
caught inside identify_gaps, which returns None, so that symbol's log
entry has status no_gap and has_gap false; only that symbol is affected
and every other symbol of the universe still gets its entry. -/
theorem detection_error_isolated (mg : ℚ) (ci : List (String × CompanyInfo)) (ds st : String)
    (data : List (String × List Bar)) (sym msg : String)
    (h : identifyGapsE mg ci ds data sym = .error msg) :
    scanSymbol mg ci ds st data sym =
      (none, { symbol := sym, companyName := (lookupInfo ci sym).name,
               sector := (lookupInfo ci sym).sector, status := "no_gap",
               time := st, has_gap := false }) ∧
    ∀ fetch bs symbols, 0 < bs →
      (scan_market_with_log fetch mg ci ds st bs symbols).2.length = symbols.length := by
  constructor
  · unfold scanSymbol identifyGaps
    rw [h]
  · intro fetch bs symbols hbs
    exact scan_log_length fetch mg ci ds st bs symbols hbs

/-- C5 witness: the amended statement evaluated where the data frame is
empty, so identify_gaps raises KeyError for symbol X. -/
theorem detection_error_isolated_witness :
    scanSymbol (1/2) [] "d" "t" [] "X" =
      (none, { symbol := "X", companyName := (lookupInfo [] "X").name,
               sector := (lookupInfo [] "X").sector, status := "no_gap",
               time := "t", has_gap := false }) ∧
    ∀ fetch bs symbols, 0 < bs →
      (scan_market_with_log fetch (1/2) [] "d" "t" bs symbols).2.length = symbols.length :=
  detection_error_isolated (1/2) [] "d" "t" [] "X" ("KeyError: " ++ "X") rfl

theorem mem_insertSorted {a x : ℕ} : ∀ {l : List ℕ}, a ∈ insertSorted x l ↔ a = x ∨ a ∈ l := by
  intro l
  induction l with
  | nil => simp [insertSorted]
  | cons y ys ih =>
      unfold insertSorted
      split_ifs with h
      · simp
      · simp only [List.mem_cons, ih]
        tauto

theorem insertSorted_perm (x : ℕ) : ∀ (l : List ℕ), List.Perm (insertSorted x l) (x :: l) := by
  intro l
  induction l with
  | nil => rfl
  | cons y ys ih =>
      unfold insertSorted
      split_ifs with h
      · rfl
      · exact List.Perm.trans (ih.cons y) (List.Perm.swap x y ys)

theorem sortAsc_perm (l : List ℕ) : List.Perm (sortAsc l) l := by
  induction l with
  | nil => rfl
  | cons y ys ih =>
      unfold sortAsc at ih ⊢
      exact List.Perm.trans (insertSorted_perm y (List.foldr insertSorted [] ys)) (ih.cons y)

theorem insertSorted_sorted {x : ℕ} : ∀ {l : List ℕ}, l.Sorted (· ≤ ·) →
    (insertSorted x l).Sorted (· ≤ ·) := by
  intro l
  induction l with
  | nil => intro _; simp [insertSorted]
  | cons y ys ih =>
      intro hs
      rw [List.sorted_cons] at hs
      unfold insertSorted
      split_ifs with h
      · rw [List.sorted_cons]
        refine ⟨?_, by rw [List.sorted_cons]; exact hs⟩
        intro b hb
        rcases List.mem_cons.mp hb with rfl | hb2
        · exact h
        · exact le_trans h (hs.1 b hb2)
      · rw [List.sorted_cons]
        refine ⟨?_, ih hs.2⟩
        intro b hb
        rcases mem_insertSorted.mp hb with rfl | hb2
        · exact le_of_not_le h
        · exact hs.1 b hb2

theorem sortAsc_sorted (l : List ℕ) : (sortAsc l).Sorted (· ≤ ·) := by
  induction l with
  | nil => simp [sortAsc]
  | cons y ys ih => exact insertSorted_sorted ih

theorem sortedDates_nodup (L : List HistEntry) : (sortedDates L).Nodup :=
  ((sortAsc_perm _).nodup_iff).mpr (List.nodup_dedup _)

theorem sortedDates_sorted_lt (L : List HistEntry) : (sortedDates L).Sorted (· < ·) :=
  List.Sorted.lt_of_le (sortAsc_sorted _) (sortedDates_nodup L)

theorem mem_sortedDates {a : ℕ} {L : List HistEntry} :
    a ∈ sortedDates L ↔ ∃ e ∈ L, e.date = a := by
  unfold sortedDates
  rw [(sortAsc_perm _).mem_iff, List.mem_dedup, List.mem_map]

theorem countDate_eq_zero {d : ℕ} {L : List HistEntry} (h : ∀ e ∈ L, e.date ≠ d) :
    countDate d L = 0 := by
  unfold countDate
  rw [List.filter_eq_nil_iff.mpr]
  · rfl
  · intro e he
    simp only [beq_iff_eq]
    exact h e he

theorem countDate_all {d : ℕ} {R : List HistEntry} (h : ∀ r ∈ R, r.date = d) :
    countDate d R = R.length := by
  unfold countDate
  rw [List.filter_eq_self.mpr]
  intro e he
  simp only [beq_iff_eq]
  exact h e he

theorem countDate_append (d : ℕ) (A B : List HistEntry) :
    countDate d (A ++ B) = countDate d A + countDate d B := by
  simp [countDate, List.filter_append]

theorem mem_filterNotDate {e : HistEntry} {d : ℕ} {L : List HistEntry} :
    e ∈ filterNotDate d L ↔ e ∈ L ∧ e.date ≠ d := by
  simp [filterNotDate, List.mem_filter]

theorem filterNotDate_eq_self {d : ℕ} {L : List HistEntry} (h : ∀ e ∈ L, e.date ≠ d) :
    filterNotDate d L = L := by
  unfold filterNotDate
  rw [List.filter_eq_self.mpr]
  intro e he
  simpa using h e he

theorem countDate_filterNotDate (d : ℕ) (L : List HistEntry) :
    countDate d (filterNotDate d L) = 0 :=
  countDate_eq_zero (fun _ he => (mem_filterNotDate.mp he).2)

theorem trim3_eq_self {L : List HistEntry} (h : ¬ 3 < (sortedDates L).length) :
    trim3 L = L := by
  unfold trim3
  rw [if_neg h]

theorem mem_trim3 {e : HistEntry} {L : List HistEntry} (h : e ∈ trim3 L) : e ∈ L := by
  unfold trim3 at h
  split at h
  · exact (List.mem_filter.mp h).1
  · exact h

theorem mem_trim3_keep {e : HistEntry} {L : List HistEntry}
    (h3 : 3 < (sortedDates L).length) (h : e ∈ trim3 L) :
    e.date ∈ keepDates (sortedDates L) := by
  unfold trim3 at h
  rw [if_pos h3] at h
  have := (List.mem_filter.mp h).2
  simpa using this

theorem mem_trim3_of_keep {e : HistEntry} {L : List HistEntry}
    (h3 : 3 < (sortedDates L).length) (he : e ∈ L)
    (hk : e.date ∈ keepDates (sortedDates L)) : e ∈ trim3 L := by
  unfold trim3
  rw [if_pos h3]
  rw [List.mem_filter]
  exact ⟨he, by simpa using hk⟩

theorem countDate_trim3_of_mem {d : ℕ} {L : List HistEntry}
    (h3 : 3 < (sortedDates L).length) (hd : d ∈ keepDates (sortedDates L)) :
    countDate d (trim3 L) = countDate d L := by
  unfold trim3
  rw [if_pos h3]
  unfold countDate
  rw [List.filter_filter]
  congr 1
  apply List.filter_congr
  intro e _
  by_cases he : e.date = d
  · simp [he, hd]
  · simp [he]

theorem trim3_dates_ne {d : ℕ} {L : List HistEntry}
    (h3 : 3 < (sortedDates L).length) (hd : d ∉ keepDates (sortedDates L)) :
    ∀ e ∈ trim3 L, e.date ≠ d := by
  intro e he heq
  exact hd (heq ▸ mem_trim3_keep h3 he)

theorem countDate_trim3_of_not_mem {d : ℕ} {L : List HistEntry}
    (h3 : 3 < (sortedDates L).length) (hd : d ∉ keepDates (sortedDates L)) :
    countDate d (trim3 L) = 0 :=
  countDate_eq_zero (trim3_dates_ne h3 hd)

theorem keepDates_length {ds : List ℕ} (h3 : 3 < ds.length) : (keepDates ds).length = 3 := by
  unfold keepDates
  rw [List.length_drop]
  omega

theorem keepDates_subset {ds : List ℕ} : keepDates ds ⊆ ds := List.drop_subset _ _

theorem nodup_subset_length {l m : List ℕ} (hn : l.Nodup) (hs : l ⊆ m) :
    l.length ≤ m.length := by
  calc l.length = l.toFinset.card := (List.toFinset_card_of_nodup hn).symm
    _ ≤ m.toFinset.card := Finset.card_le_card (fun x hx => by
        rw [List.mem_toFinset] at hx ⊢
        exact hs hx)
    _ ≤ m.length := List.toFinset_card_le m

theorem take_lt_drop {ds : List ℕ} (hs : ds.Sorted (· < ·)) (k : ℕ) :
    ∀ x ∈ ds.take k, ∀ y ∈ ds.drop k, x < y := by
  have hsplit := List.take_append_drop k ds
  have hp : List.Pairwise (· < ·) (ds.take k ++ ds.drop k) := by
    rw [hsplit]
    exact hs
  exact (List.pairwise_append.mp hp).2.2

theorem filterNotDate_append (d : ℕ) (A B : List HistEntry) :
    filterNotDate d (A ++ B) = filterNotDate d A ++ filterNotDate d B := by
  simp [filterNotDate, List.filter_append]

theorem filterNotDate_all_nil {d : ℕ} {R : List HistEntry} (h : ∀ r ∈ R, r.date = d) :
    filterNotDate d R = [] := by
  unfold filterNotDate
  rw [List.filter_eq_nil_iff]
  intro e he
  simpa using h e he

theorem min_not_in_drop {s : List ℕ} (hs : s.Sorted (· < ·)) {d : ℕ} (hd : d ∈ s)
    (hmin : ∀ x ∈ s, x ≠ d → d < x) {k : ℕ} (hk : 1 ≤ k) : d ∉ s.drop k := by
  intro hdrop
  cases s with
  | nil => simp at hd
  | cons x t =>
      cases k with
      | zero => omega
      | succ k2 =>
          rw [List.drop_succ_cons] at hdrop
          have hdt : d ∈ t := List.drop_subset k2 t hdrop
          have hxd : x < d := (List.pairwise_cons.mp hs).1 d hdt
          have hdx : d < x := hmin x (List.mem_cons_self x t) (ne_of_lt hxd)
          exact lt_asymm hxd hdx

theorem countDate_trim3_twice {A R : List HistEntry} {d : ℕ}
    (hA : ∀ e ∈ A, e.date ≠ d) (hR : ∀ r ∈ R, r.date = d) :
    countDate d (trim3 (filterNotDate d (trim3 (A ++ R)) ++ R))
      = countDate d (trim3 (A ++ R)) := by
  by_cases h3 : 3 < (sortedDates (A ++ R)).length
  case neg =>
    rw [trim3_eq_self h3, filterNotDate_append, filterNotDate_eq_self hA,
      filterNotDate_all_nil hR, List.append_nil, trim3_eq_self h3]
  case pos =>
    by_cases hk : d ∈ keepDates (sortedDates (A ++ R))
    case pos =>
      have hcount1 : countDate d (trim3 (A ++ R)) = R.length := by
        rw [countDate_trim3_of_mem h3 hk, countDate_append, countDate_eq_zero hA,
          countDate_all hR]
        omega
      have hsub : ∀ x ∈ sortedDates (filterNotDate d (trim3 (A ++ R)) ++ R),
          x ∈ keepDates (sortedDates (A ++ R)) := by
        intro x hx
        obtain ⟨e, he, hed⟩ := mem_sortedDates.mp hx
        rcases List.mem_append.mp he with h1 | h1
        · exact hed ▸ mem_trim3_keep h3 (mem_filterNotDate.mp h1).1
        · rw [← hed, hR e h1]
          exact hk
      have hlen : ¬ 3 < (sortedDates (filterNotDate d (trim3 (A ++ R)) ++ R)).length := by
        have h5 := nodup_subset_length (sortedDates_nodup _) hsub
        rw [keepDates_length h3] at h5
        omega
      rw [trim3_eq_self hlen, countDate_append, countDate_filterNotDate, countDate_all hR,
        hcount1]
      omega
    case neg =>
      have hcount1 : countDate d (trim3 (A ++ R)) = 0 :=
        countDate_trim3_of_not_mem h3 hk
      have hne1 : ∀ e ∈ trim3 (A ++ R), e.date ≠ d := trim3_dates_ne h3 hk
      have hfself : filterNotDate d (trim3 (A ++ R)) = trim3 (A ++ R) :=
        filterNotDate_eq_self hne1
      rw [hfself, hcount1]
      by_cases hRe : R = []
      · subst hRe
        rw [List.append_nil]
        exact countDate_eq_zero (fun e he => hne1 e (mem_trim3 he))
      · obtain ⟨r0, hr0⟩ := List.exists_mem_of_ne_nil R hRe
        have hd_pre : d ∈ sortedDates (A ++ R) :=
          mem_sortedDates.mpr ⟨r0, List.mem_append_right A hr0, hR r0 hr0⟩
        have hd_take : d ∈ (sortedDates (A ++ R)).take ((sortedDates (A ++ R)).length - 3) := by
          have hsplit := List.take_append_drop ((sortedDates (A ++ R)).length - 3)
            (sortedDates (A ++ R))
          rw [← hsplit] at hd_pre
          rcases List.mem_append.mp hd_pre with h1 | h1
          · exact h1
          · exact absurd h1 hk
        have hlt_keep : ∀ x ∈ keepDates (sortedDates (A ++ R)), d < x := fun x hx =>
          take_lt_drop (sortedDates_sorted_lt (A ++ R)) _ d hd_take x hx
        have hs2_sub : ∀ x ∈ sortedDates (trim3 (A ++ R) ++ R),
            x ∈ keepDates (sortedDates (A ++ R)) ∨ x = d := by
          intro x hx
          obtain ⟨e, he, hed⟩ := mem_sortedDates.mp hx
          rcases List.mem_append.mp he with h1 | h1
          · exact Or.inl (hed ▸ mem_trim3_keep h3 h1)
          · exact Or.inr (hed ▸ hR e h1)
        have hs2_keep : ∀ x ∈ keepDates (sortedDates (A ++ R)),
            x ∈ sortedDates (trim3 (A ++ R) ++ R) := by
          intro x hx
          obtain ⟨e, he, hed⟩ := mem_sortedDates.mp (keepDates_subset hx)
          refine mem_sortedDates.mpr ⟨e, List.mem_append_left R ?_, hed⟩
          exact mem_trim3_of_keep h3 he (hed ▸ hx)
        have hs2_d : d ∈ sortedDates (trim3 (A ++ R) ++ R) :=
          mem_sortedDates.mpr ⟨r0, List.mem_append_right _ hr0, hR r0 hr0⟩
        have hmin : ∀ x ∈ sortedDates (trim3 (A ++ R) ++ R), x ≠ d → d < x := by
          intro x hx hne
          rcases hs2_sub x hx with h1 | h1
          · exact hlt_keep x h1
          · exact absurd h1 hne
        have hkn : (keepDates (sortedDates (A ++ R))).Nodup :=
          (List.drop_sublist _ _).nodup (sortedDates_nodup _)
        have hins : insert d (keepDates (sortedDates (A ++ R))).toFinset ⊆
            (sortedDates (trim3 (A ++ R) ++ R)).toFinset := by
          intro x hx
          rw [Finset.mem_insert] at hx
          rw [List.mem_toFinset]
          rcases hx with rfl | hx
          · exact hs2_d
          · exact hs2_keep x (List.mem_toFinset.mp hx)
        have hcard : (insert d (keepDates (sortedDates (A ++ R))).toFinset).card = 4 := by
          rw [Finset.card_insert_of_not_mem (fun hmem => hk (List.mem_toFinset.mp hmem))]
          rw [List.toFinset_card_of_nodup hkn, keepDates_length h3]
        have hn2 : 3 < (sortedDates (trim3 (A ++ R) ++ R)).length := by
          have h6 := Finset.card_le_card hins
          rw [hcard] at h6
          have h7 := List.toFinset_card_le (sortedDates (trim3 (A ++ R) ++ R))
          omega
        have hd_not2 : d ∉ keepDates (sortedDates (trim3 (A ++ R) ++ R)) := by
          unfold keepDates
          exact min_not_in_drop (sortedDates_sorted_lt _) hs2_d hmin (by omega)
        exact countDate_trim3_of_not_mem hn2 hd_not2

theorem countDate_updateLedger_idem {L R : List HistEntry} {d : ℕ} (hR : ∀ r ∈ R, r.date = d) :
    countDate d (updateLedger (updateLedger L R d) R d) = countDate d (updateLedger L R d) := by
  unfold updateLedger
  exact countDate_trim3_twice (fun e he => (mem_filterNotDate.mp he).2) hR

/-- C7: running the cache-level scan twice with the same results for the
same date, the second run replacing what the first stored, leaves the
number of ledger entries carrying that date unchanged. -/
theorem rescan_same_date_count (st : ApiState) (hh mm : ℕ) (R : List HistEntry) (d : ℕ)
    (hR : ∀ r ∈ R, r.date = d) :
    countDate d
      ((scan_market_api (scan_market_api st hh mm R d).state hh mm R d).state.historical_data)
      = countDate d ((scan_market_api st hh mm R d).state.historical_data) := by
  by_cases hs : st.scanning = true
  · simp [scan_market_api, hs]
  · rw [Bool.not_eq_true] at hs
    by_cases hw : inScanWindow hh mm = true
    · by_cases hre : R.isEmpty = true
      · simp [scan_market_api, hs, hw, hre]
      · rw [Bool.not_eq_true] at hre
        simp only [scan_market_api, hs, hw, hre, Bool.false_eq_true, if_false, if_true]
        exact countDate_updateLedger_idem hR
    · rw [Bool.not_eq_true] at hw
      simp [scan_market_api, hs, hw]

/-- C7 witness: a rescan of one same-dated record over a one-entry ledger. -/
theorem rescan_same_date_count_witness :
    countDate 7
      ((scan_market_api (scan_market_api ⟨none, [⟨5, "x"⟩], false⟩ 9 43 [⟨7, "r"⟩] 7).state
          9 43 [⟨7, "r"⟩] 7).state.historical_data)
      = countDate 7
          ((scan_market_api ⟨none, [⟨5, "x"⟩], false⟩ 9 43 [⟨7, "r"⟩] 7).state.historical_data) :=
  rescan_same_date_count ⟨none, [⟨5, "x"⟩], false⟩ 9 43 [⟨7, "r"⟩] 7 (by decide)

/-- C8: after the ledger replacement and retention step of a successful
scan with results, the ledger holds at most 3 distinct dates, and every
date dropped by retention is older than every date kept. -/
theorem retention_after_scan (st : ApiState) (hh mm : ℕ) (R : List HistEntry) (d : ℕ)
    (h1 : st.scanning = false) (h2 : inScanWindow hh mm = true) (h3 : R ≠ []) :
    (sortedDates ((scan_market_api st hh mm R d).state.historical_data)).length ≤ 3 ∧
    ∀ x ∈ sortedDates (filterNotDate d st.historical_data ++ R),
      x ∉ sortedDates ((scan_market_api st hh mm R d).state.historical_data) →
      ∀ y ∈ sortedDates ((scan_market_api st hh mm R d).state.historical_data), x < y := by
  have hred : (scan_market_api st hh mm R d).state.historical_data
      = updateLedger st.historical_data R d := by
    simp [scan_market_api, h1, h2, List.isEmpty_iff, h3]
  rw [hred]
  unfold updateLedger
  by_cases hl3 : 3 < (sortedDates (filterNotDate d st.historical_data ++ R)).length
  · have hsub : ∀ x ∈ sortedDates (trim3 (filterNotDate d st.historical_data ++ R)),
        x ∈ keepDates (sortedDates (filterNotDate d st.historical_data ++ R)) := by
      intro x hx
      obtain ⟨e, he, hed⟩ := mem_sortedDates.mp hx
      exact hed ▸ mem_trim3_keep hl3 he
    constructor
    · have h5 := nodup_subset_length (sortedDates_nodup _) hsub
      rw [keepDates_length hl3] at h5
      exact h5
    · intro x hx hnx y hy
      have hy_keep := hsub y hy
      have hx_keep : x ∉ keepDates (sortedDates (filterNotDate d st.historical_data ++ R)) := by
        intro hxk
        apply hnx
        obtain ⟨e, he, hed⟩ := mem_sortedDates.mp hx
        exact mem_sortedDates.mpr ⟨e, mem_trim3_of_keep hl3 he (hed ▸ hxk), hed⟩
      have hx_take : x ∈ (sortedDates (filterNotDate d st.historical_data ++ R)).take
          ((sortedDates (filterNotDate d st.historical_data ++ R)).length - 3) := by
        have hsplit := List.take_append_drop
          ((sortedDates (filterNotDate d st.historical_data ++ R)).length - 3)
          (sortedDates (filterNotDate d st.historical_data ++ R))
        rw [← hsplit] at hx
        rcases List.mem_append.mp hx with h6 | h6
        · exact h6
        · exact absurd h6 hx_keep
      exact take_lt_drop (sortedDates_sorted_lt _) _ x hx_take y hy_keep
  · rw [trim3_eq_self hl3]
    constructor
    · omega
    · intro x hx hnx _ _
      exact absurd hx hnx

/-- C8 witness: a ledger holding dates 1, 2, 3 scanned on date 4 gets
trimmed back to three dates, and the evicted date 1 is older than all
kept dates. -/
theorem retention_after_scan_witness :
    (sortedDates ((scan_market_api ⟨none, [⟨1, "a"⟩, ⟨2, "b"⟩, ⟨3, "c"⟩], false⟩ 9 43
        [⟨4, "r"⟩] 4).state.historical_data)).length ≤ 3 ∧
    ∀ x ∈ sortedDates (filterNotDate 4 [⟨1, "a"⟩, ⟨2, "b"⟩, ⟨3, "c"⟩] ++ [⟨4, "r"⟩]),
      x ∉ sortedDates ((scan_market_api ⟨none, [⟨1, "a"⟩, ⟨2, "b"⟩, ⟨3, "c"⟩], false⟩ 9 43
          [⟨4, "r"⟩] 4).state.historical_data) →
      ∀ y ∈ sortedDates ((scan_market_api ⟨none, [⟨1, "a"⟩, ⟨2, "b"⟩, ⟨3, "c"⟩], false⟩ 9 43
          [⟨4, "r"⟩] 4).state.historical_data), x < y :=
  retention_after_scan ⟨none, [⟨1, "a"⟩, ⟨2, "b"⟩, ⟨3, "c"⟩], false⟩ 9 43 [⟨4, "r"⟩] 4
    rfl rfl (by decide)

/-- C9: a scan requested while one is in flight is a no-op: the cache
state (ledger, last_scan, flag) is unchanged, no scanner run and hence no
batch fetch is issued, and nothing is saved. -/
theorem scan_skipped_when_in_flight (st : ApiState) (hh mm : ℕ) (R : List HistEntry) (d : ℕ)
    (h : st.scanning = true) :
    scan_market_api st hh mm R d = ⟨st, 0, []⟩ := by
  simp [scan_market_api, h]

/-- C9 witness: the no-op at a concrete busy state. -/
theorem scan_skipped_when_in_flight_witness :
    scan_market_api ⟨some (9, 41), [⟨1, "a"⟩], true⟩ 9 43 [⟨2, "b"⟩] 2
      = ⟨⟨some (9, 41), [⟨1, "a"⟩], true⟩, 0, []⟩ :=
  scan_skipped_when_in_flight ⟨some (9, 41), [⟨1, "a"⟩], true⟩ 9 43 [⟨2, "b"⟩] 2 rfl

/-- C10: a scan inside the market window that finds no gaps leaves the
ledger untouched and saves nothing, while still stamping last_scan with
the current time and resetting the in-flight flag. -/
theorem empty_scan_preserves_ledger (st : ApiState) (hh mm : ℕ) (R : List HistEntry) (d : ℕ)
    (h1 : st.scanning = false) (h2 : inScanWindow hh mm = true) (h3 : R = []) :
    (scan_market_api st hh mm R d).state.historical_data = st.historical_data ∧
    (scan_market_api st hh mm R d).saves = [] ∧
    (scan_market_api st hh mm R d).state.last_scan = some (hh, mm) ∧
    (scan_market_api st hh mm R d).state.scanning = false := by
  subst h3
  simp [scan_market_api, h1, h2]

/-- C10 witness: an empty scan at 9:44 over a one-entry ledger. -/
theorem empty_scan_preserves_ledger_witness :
    (scan_market_api ⟨none, [⟨1, "a"⟩], false⟩ 9 44 [] 5).state.historical_data
        = ([⟨1, "a"⟩] : List HistEntry) ∧
    (scan_market_api ⟨none, [⟨1, "a"⟩], false⟩ 9 44 [] 5).saves = [] ∧
    (scan_market_api ⟨none, [⟨1, "a"⟩], false⟩ 9 44 [] 5).state.last_scan = some (9, 44) ∧
    (scan_market_api ⟨none, [⟨1, "a"⟩], false⟩ 9 44 [] 5).state.scanning = false :=
  empty_scan_preserves_ledger ⟨none, [⟨1, "a"⟩], false⟩ 9 44 [] 5 rfl rfl rfl
